import Mathlib

/-!
# Verification of the image-processing service's naming, derivation and crop pipelines

Shallow embedding of `src/image-processing/image-processing.service.ts`,
`src/image-processing/image-processing.util.ts` and `src/config/imageConfig.ts`.

File names, paths and messages are modelled as lists of characters (`Name`).
The filesystem is an association list from paths to image contents; the sharp
codec is external and is modelled from its documented contract (decode /
re-encode preserves intrinsic pixel dimensions, extraction fails outside the
source bounds).  The separator character of the host platform is an explicit
parameter `sep` ('/' on POSIX, '\\' on win32), mirroring Node's `path.join`.
-/

/-- File names, path fragments and messages as lists of characters. -/
abbrev Name := List Char

/-- Characters of a string literal, used to write `Name` constants. -/
def str (s : String) : Name := s.data

/-- Character class of the collision-avoidance token regex `[a-f0-9-]`
in `getFilePaths` (image-processing.service.ts line 49). -/
def isTokenChar (c : Char) : Bool :=
  (('a' ≤ c) && (c ≤ 'f')) || (('0' ≤ c) && (c ≤ '9')) || (c == '-')

/-- `token` is a well-formed collision-avoidance token: exactly 36 characters
from the class `[a-f0-9-]` (a v4 UUID string is one such token). -/
def tokenOk (token : Name) : Bool :=
  (token.length == 36) && token.all isTokenChar

/-- The stem ends in `-<token>` for the fixed token pattern: this is exactly the
condition under which the anchored, end-of-string regex of `getFilePaths`
(a hyphen followed by 36 characters of the class `[a-f0-9-]`) matches — the
match has fixed length 37, so it can only sit at position `length - 37`. -/
def hasTrailingToken (stem : Name) : Bool :=
  decide (37 ≤ stem.length)
  && ((stem.drop (stem.length - 37)).head? == some '-')
  && (stem.drop (stem.length - 36)).all isTokenChar

/-- The `baseName.replace(tokenRegex, '')` call from `getFilePaths`: strip the
trailing 37 characters when they form `-<token>`, otherwise leave the stem
unchanged. -/
def stripUuidSuffix (stem : Name) : Name :=
  if hasTrailingToken stem then stem.take (stem.length - 37) else stem

/-- Helper for `parseName`: walks the reversed file name; on the first `'.'`
found, returns the (reversed) part before it, unless that dot is the leading
character of the original name (a dotfile has no extension). -/
def findExtSplit : Name → Option Name
  | [] => none
  | c :: rest =>
    if c = '.' then (if rest = [] then none else some rest)
    else findExtSplit rest

/-- `path.parse(filename).name` for a bare file name (no directory part):
drop the extension starting at the last `'.'`, except when that dot is the
first character (dotfile) or the name is `".."`. -/
def parseName (n : Name) : Name :=
  if n = str ".." then n
  else
    match findExtSplit n.reverse with
    | some stemRev => stemRev.reverse
    | none => n

/-- `path.join` normalization drops a leading `"./"` from the directory. -/
def dropDotSlash : Name → Name
  | '.' :: '/' :: rest => rest
  | n => n

/-- Node's `path.join(dir, file)` for the directory literals used by the
service: drop the leading `"./"`, insert one separator, and render every
separator with the platform's separator character (`'/'` on POSIX, `'\\'`
on win32 — win32 `path.join` converts forward slashes). -/
def pathJoin (sep : Char) (dir file : Name) : Name :=
  (dropDotSlash dir ++ '/' :: file).map (fun c => if c = '/' then sep else c)

/-- `UPLOAD_DIR` from imageConfig.ts. -/
def UPLOAD_DIR : Name := str "./images/uploads"

/-- `OUTPUT_DIR` from imageConfig.ts. -/
def OUTPUT_DIR : Name := str "./images/processed"

/-- `DEFAULT_FORMAT` from imageConfig.ts. -/
def DEFAULT_FORMAT : Name := str "webp"

/-- Result record of `getFilePaths`. -/
structure FilePaths where
  filePath : Name
  fileBaseName : Name
  originalOutputPath : Name
  deriving DecidableEq, Repr

/-- `getFilePaths` from image-processing.service.ts (lines 46–55): resolve the
staged path, the token-stripped base name, and the canonical output path
`<uploadDir>/<base>.<defaultFormat>`. -/
def getFilePaths (sep : Char) (filename : Name) : FilePaths :=
  let filePath := pathJoin sep UPLOAD_DIR filename
  let baseName := parseName filename
  let fileBaseName := stripUuidSuffix baseName
  let originalOutputPath :=
    pathJoin sep UPLOAD_DIR (fileBaseName ++ '.' :: DEFAULT_FORMAT)
  { filePath := filePath, fileBaseName := fileBaseName,
    originalOutputPath := originalOutputPath }

/-- `getOutputPath` from image-processing.util.ts:
`path.join(outputDir, fileBaseName + '-' + suffix + '.' + fmt)`. -/
def getOutputPath (sep : Char) (outputDir fileBaseName sfx fmt : Name) : Name :=
  pathJoin sep outputDir (fileBaseName ++ '-' :: (sfx ++ '.' :: fmt))

/-- A staged file name `<base>-<token><ext>` as produced by the upload layer. -/
def stagedName (base token ext : Name) : Name := base ++ '-' :: (token ++ ext)

/-- The extension part of a staged name is well formed with respect to the
base: either a genuine dot-extension whose tail holds no further dot, or
empty while the base has dots at most in leading (dotfile) position.  Every
name produced by the multer staging callback (`<name>-<uuid><extname>`)
satisfies this. -/
def stagedShapeOk (base ext : Name) : Bool :=
  match ext with
  | [] => decide ('.' ∉ base.drop 1)
  | c :: e => (c == '.') && decide ('.' ∉ e)

/-- Content of a file as far as the pipelines observe it: intrinsic pixel
dimensions as sharp's `metadata()` reports them (`none` models an undefined
`metadata.width` / `metadata.height`), the container format, and an opaque
payload identifying the decoded pixel data. -/
structure ImgData where
  width : Option Int
  height : Option Int
  fmt : Name
  payload : Nat
  deriving DecidableEq, Repr

/-- The filesystem namespace under the upload and output directories: an
association list from paths to contents; earlier entries shadow later ones. -/
abbrev FS := List (Name × ImgData)

/-- Look a path up (first matching entry). -/
def FS.read (fs : FS) (p : Name) : Option ImgData :=
  match fs with
  | [] => none
  | (q, d) :: rest => if p = q then some d else FS.read rest p

/-- `fs.unlink p`: remove every entry at path `p`. -/
def FS.del (fs : FS) (p : Name) : FS :=
  match fs with
  | [] => []
  | (q, d) :: rest => if q = p then FS.del rest p else (q, d) :: FS.del rest p

/-- Write (create or overwrite wholesale) the file at path `p`. -/
def FS.write (fs : FS) (p : Name) (d : ImgData) : FS := (p, d) :: fs

/-- Errors as the service surfaces them: `badRequest` is NestJS's
`BadRequestException`, `internalServerError` its `InternalServerErrorException`,
and `plainError` a bare `Error` (e.g. the one thrown by `ensureFileExists`).
All carry their message. -/
inductive SvcError where
  | badRequest (msg : Name)
  | internalServerError (msg : Name)
  | plainError (msg : Name)
  deriving DecidableEq, Repr

/-- `error.message` of any of the modelled errors (they are all `Error`
instances, so the service's `error instanceof Error ? error.message : error`
always selects the message). -/
def SvcError.message : SvcError → Name
  | .badRequest m => m
  | .internalServerError m => m
  | .plainError m => m

/-- The catch-all of `processImage`:
`new InternalServerErrorException('Error processing image: ' + message)`. -/
def wrapProcess (e : SvcError) : SvcError :=
  .internalServerError (str "Error processing image: " ++ e.message)

/-- The catch-all of `cropImage`:
`new InternalServerErrorException('Error cropping image: ' + message)`. -/
def wrapCrop (e : SvcError) : SvcError :=
  .internalServerError (str "Error cropping image: " ++ e.message)

/-- JavaScript's `a > b` where `b` is `metadata.width as number`: when the
metadata field is `undefined` the comparison is against `NaN` and is `false`. -/
def jsGtOpt (a : Int) (b : Option Int) : Bool :=
  match b with
  | none => false
  | some v => decide (v < a)

/-- Renders a possibly-undefined dimension inside a template literal:
`undefined` prints as the string `undefined`. -/
def showDim (o : Option Int) : Name :=
  match o with
  | none => str "undefined"
  | some v => (toString v).data

/-- Modelled from the spec (§4.5 codec adapter contract): sharp's
`.webp().toFile(...)` re-encoding — decoding then re-encoding to the
canonical format preserves intrinsic width and height exactly and only
changes the container format. -/
def webpEncode (i : ImgData) : ImgData := { i with fmt := DEFAULT_FORMAT }

/-- The two sharp fit policies used by `generateVariations`. -/
inductive FitOpt where
  | fill
  | inside
  deriving DecidableEq, Repr

/-- Modelled from the spec (§4.5, §4.3): sharp's
`.resize(width, height, fit).toFile(out)` writing the webp variant.  With the
`fill` policy the output has exactly the target dimensions; the `inside`
policy scales to fit inside the target box (its exact output dimensions are
not constrained by any claim and are left as the source's). -/
def sharpResize (i : ImgData) (w h : Int) (fit : FitOpt) : ImgData :=
  match fit with
  | .fill => { i with width := some w, height := some h, fmt := DEFAULT_FORMAT }
  | .inside => { i with fmt := DEFAULT_FORMAT }

/-- Modelled from the spec (§4.5): sharp's `.extract(left, top, width,
height)` — fails (with an extract-area error) when the rectangle is not
fully inside the source's intrinsic bounds or those bounds are unknown. -/
def sharpExtract (i : ImgData) (x y w h : Int) : Option ImgData :=
  match i.width, i.height with
  | some wSrc, some hSrc =>
    if 0 ≤ x ∧ 0 ≤ y ∧ 0 < w ∧ 0 < h ∧ x + w ≤ wSrc ∧ y + h ≤ hSrc then
      some { width := some w, height := some h, fmt := i.fmt, payload := i.payload }
    else none
  | _, _ => none

/-- sharp's `.toFormat(outputFormat)`: changes only the container format. -/
def sharpToFormat (i : ImgData) (fmt : Name) : ImgData := { i with fmt := fmt }

/-- One entry of `ImageConfig` (imageConfig.ts lines 7–10). -/
structure ImgTypeDesc where
  width : Int
  height : Int
  sfx : Name
  deriving DecidableEq, Repr

/-- `ImageConfig[imageType]`: the static registry maps `game` to
184×256/`thumbnail` and `promotion` to 361×240/`resized`. -/
def imageConfigLookup (t : Name) : Option ImgTypeDesc :=
  if t = str "game" then some { width := 184, height := 256, sfx := str "thumbnail" }
  else if t = str "promotion" then some { width := 361, height := 240, sfx := str "resized" }
  else none

/-- `isValidImageType` from image-processing.util.ts:
`Object.keys(ImageConfig).includes(imageType)`. -/
def isValidImageType (t : Name) : Bool :=
  [str "game", str "promotion"].contains t

/-- `convertToWebP` (image-processing.service.ts lines 64–72): read the staged
bytes (fails if the staged file is gone), test the canonical path with
`fs.access` and only on failure re-encode the staged bytes there, then
unconditionally delete the staged file.  Errors leave the filesystem as it
stood when they were raised. -/
def convertToWebP (fs : FS) (filePath originalOutputPath : Name) :
    FS × Except SvcError Unit :=
  match fs.read filePath with
  | none => (fs, .error (.plainError (str "ENOENT: no such file or directory")))
  | some staged =>
    let fs1 :=
      match fs.read originalOutputPath with
      | some _ => fs
      | none => fs.write originalOutputPath (webpEncode staged)
    (fs1.del filePath, .ok ())

/-- `generateVariations` (lines 83–106): look the descriptor up, resolve the
variant path, and resize the canonical file to the descriptor's geometry
with the `fill` policy for `promotion` and `inside` otherwise, overwriting
the variant path wholesale. -/
def generateVariations (sep : Char) (fs : FS)
    (fileBaseName filePath imageType : Name) : FS × Except SvcError Name :=
  match imageConfigLookup imageType with
  | none => (fs, .error (.plainError (str "Cannot destructure property")))
  | some d =>
    let outputPath := getOutputPath sep OUTPUT_DIR fileBaseName d.sfx DEFAULT_FORMAT
    match fs.read filePath with
    | none => (fs, .error (.plainError (str "Input file is missing")))
    | some img =>
      let fit := if imageType = str "promotion" then FitOpt.fill else FitOpt.inside
      (fs.write outputPath (sharpResize img d.width d.height fit), .ok outputPath)

/-- The response record of `processImage`. -/
structure ProcessResult where
  original : Name
  variation : Name
  deriving DecidableEq, Repr

/-- `this.server` built in the constructor: `http://localhost:<port>`. -/
def serverUrl (port : Nat) : Name := str "http://localhost:" ++ (toString port).data

/-- `processImage` (lines 118–147): resolve paths, check the staged file
exists (outside the try block — its failure is NOT wrapped), then inside the
try: validate the image type, convert to canonical, generate the variant,
and build the two response URLs; every error raised inside the try is
wrapped by `wrapProcess`. -/
def processImage (sep : Char) (port : Nat) (fs : FS)
    (filename imageType : Name) : FS × Except SvcError ProcessResult :=
  let fp := getFilePaths sep filename
  match fs.read fp.filePath with
  | none => (fs, .error (.plainError (str "File not found")))
  | some _ =>
    if isValidImageType imageType then
      match convertToWebP fs fp.filePath fp.originalOutputPath with
      | (fs1, .error e) => (fs1, .error (wrapProcess e))
      | (fs1, .ok _) =>
        match generateVariations sep fs1 fp.fileBaseName fp.originalOutputPath imageType with
        | (fs2, .error e) => (fs2, .error (wrapProcess e))
        | (fs2, .ok variation) =>
          (fs2, .ok { original := serverUrl port ++ '/' :: fp.originalOutputPath,
                      variation := serverUrl port ++ '/' :: variation })
    else
      (fs, .error (wrapProcess (.badRequest (str "Invalid image type: " ++ imageType))))

/-- The `cropOptions` value object (types/image.type.ts). -/
structure CropOption where
  x : Int
  y : Int
  width : Int
  height : Int
  outputFormat : Option Name
  deriving DecidableEq, Repr

/-- The message of the invalid-geometry `BadRequestException`. -/
def invalidDimsMsg : Name :=
  str "Invalid crop dimensions (negative values are not allowed)."

/-- The message of the out-of-bounds `BadRequestException`, interpolating the
probed dimensions. -/
def exceedsMsg (w h : Option Int) : Name :=
  str "Crop area exceeds image dimensions. Image dimensions: "
    ++ showDim w ++ str "x" ++ showDim h ++ str "."

/-- `cropImage` (lines 157–202): resolve paths, check the staged file exists
(outside the try — not wrapped), then inside the try: probe the staged
file's metadata, validate the rectangle (geometry, then bounds against the
probed dimensions with JavaScript comparison semantics), convert to
canonical, and extract the rectangle from the canonical file into the
`-cropped` output path; every error raised inside the try is wrapped by
`wrapCrop`. -/
def cropImage (sep : Char) (fs : FS) (filename : Name) (c : CropOption) :
    FS × Except SvcError Name :=
  let fp := getFilePaths sep filename
  let ofmt := c.outputFormat.getD DEFAULT_FORMAT
  match fs.read fp.filePath with
  | none => (fs, .error (.plainError (str "File not found")))
  | some staged =>
    if c.x < 0 ∨ c.y < 0 ∨ c.width ≤ 0 ∨ c.height ≤ 0 then
      (fs, .error (wrapCrop (.badRequest invalidDimsMsg)))
    else if jsGtOpt (c.x + c.width) staged.width
         || jsGtOpt (c.y + c.height) staged.height then
      (fs, .error (wrapCrop (.badRequest (exceedsMsg staged.width staged.height))))
    else
      match convertToWebP fs fp.filePath fp.originalOutputPath with
      | (fs1, .error e) => (fs1, .error (wrapCrop e))
      | (fs1, .ok _) =>
        let croppedFilePath := getOutputPath sep OUTPUT_DIR fp.fileBaseName (str "cropped") ofmt
        match fs1.read fp.originalOutputPath with
        | none => (fs1, .error (wrapCrop (.plainError (str "Input file is missing"))))
        | some canonical =>
          match sharpExtract canonical c.x c.y c.width c.height with
          | none => (fs1, .error (wrapCrop (.plainError (str "extract_area: bad extract area"))))
          | some cropped =>
            (fs1.write croppedFilePath (sharpToFormat cropped ofmt), .ok croppedFilePath)

/-! ## Concrete example inputs used by witnesses and counterexamples -/

/-- A v4 UUID as the collision-avoidance token of the examples. -/
def exampleToken : Name := str "123e4567-e89b-12d3-a456-426614174000"

/-- A staged file name `photo-<uuid>.jpg` as multer produces it. -/
def exampleStaged : Name := stagedName (str "photo") exampleToken (str ".jpg")

/-- A 500×400 JPEG staged upload. -/
def exampleImg : ImgData :=
  { width := some 500, height := some 400, fmt := str "jpeg", payload := 7 }

/-- A filesystem holding only the staged upload (POSIX separator). -/
def exampleFS : FS := [(pathJoin '/' UPLOAD_DIR exampleStaged, exampleImg)]

/-- The filesystem of the C8 scenario: the staged upload under win32 paths. -/
def c8fs : FS := [(pathJoin '\\' UPLOAD_DIR exampleStaged, exampleImg)]

/-- An upload whose probe yields no intrinsic dimensions. -/
def undefDimsImg : ImgData :=
  { width := none, height := none, fmt := str "jpeg", payload := 9 }

/-- The filesystem of the C9 witness: a staged file with undefined probe. -/
def c9fs : FS := [(pathJoin '/' UPLOAD_DIR exampleStaged, undefDimsImg)]

/-- The filesystem of the C5 counterexample: the 500×400 staged upload plus a
pre-existing 100×100 canonical artifact at the resolved canonical path
(left behind by an earlier upload sharing the base name `photo`). -/
def c5fs : FS :=
  [(pathJoin '/' UPLOAD_DIR exampleStaged, exampleImg),
   (pathJoin '/' UPLOAD_DIR (str "photo.webp"),
     { width := some 100, height := some 100, fmt := str "webp", payload := 3 })]

/-- The variant path that `generateVariations` writes for a registered type
(arbitrary for unregistered ones, which never reach the write). -/
def variantPathOf (sep : Char) (imageType fileBaseName : Name) : Name :=
  match imageConfigLookup imageType with
  | some d => getOutputPath sep OUTPUT_DIR fileBaseName d.sfx DEFAULT_FORMAT
  | none => []

/-- The filesystem of the C10 witness: the staged upload plus an unrelated
pre-existing file that a successful run must leave untouched. -/
def c10fs : FS :=
  [(pathJoin '/' UPLOAD_DIR exampleStaged, exampleImg),
   (pathJoin '/' UPLOAD_DIR (str "other.webp"),
     { width := some 9, height := some 9, fmt := str "webp", payload := 42 })]

/-- The response of the C10 witness upload run. -/
def c10res : ProcessResult :=
  { original := str "http://localhost:3000/images/uploads/photo.webp",
    variation := str "http://localhost:3000/images/processed/photo-thumbnail.webp" }

/-- The crop options of the C10 witness crop run. -/
def c10crop : CropOption :=
  { x := 10, y := 20, width := 200, height := 150, outputFormat := none }

/-! ## Helper lemmas about the filesystem model -/

theorem FS.read_write (fs : FS) (p q : Name) (d : ImgData) :
    (fs.write p d).read q = if q = p then some d else fs.read q := by
  simp [FS.write, FS.read]

theorem FS.read_del (fs : FS) (p q : Name) :
    (fs.del p).read q = if q = p then none else fs.read q := by
  induction fs with
  | nil => simp [FS.del, FS.read]
  | cons e rest ih =>
    obtain ⟨k, d⟩ := e
    simp only [FS.del, FS.read]
    by_cases hkp : k = p <;> by_cases hqk : q = k <;> by_cases hqp : q = p <;>
      simp_all [FS.read]

/-! ## Helper lemmas about the Resolver -/

theorem pathJoin_length (sep : Char) (dir f : Name) :
    (pathJoin sep dir f).length = (dropDotSlash dir).length + 1 + f.length := by
  simp [pathJoin]
  omega

theorem upload_ne_output (sep : Char) (a b : Name) :
    pathJoin sep UPLOAD_DIR a ≠ pathJoin sep OUTPUT_DIR b := by
  intro h
  have e1 : pathJoin sep UPLOAD_DIR a
      = 'i' :: 'm' :: 'a' :: 'g' :: 'e' :: 's' :: sep :: 'u' ::
        (str "ploads" ++ '/' :: a).map (fun c => if c = '/' then sep else c) := rfl
  have e2 : pathJoin sep OUTPUT_DIR b
      = 'i' :: 'm' :: 'a' :: 'g' :: 'e' :: 's' :: sep :: 'p' ::
        (str "rocessed" ++ '/' :: b).map (fun c => if c = '/' then sep else c) := rfl
  rw [e1, e2] at h
  simp only [List.cons.injEq] at h
  exact absurd h.2.2.2.2.2.2.2.1 (by decide)

theorem findExtSplit_of_not_mem (l : Name) (h : '.' ∉ l) : findExtSplit l = none := by
  induction l with
  | nil => rfl
  | cons c rest ih =>
    rw [List.mem_cons, not_or] at h
    simp only [findExtSplit]
    rw [if_neg (fun hc => h.1 hc.symm), ih h.2]

theorem findExtSplit_append (l r : Name) (h : '.' ∉ l) :
    findExtSplit (l ++ '.' :: r) = if r = [] then none else some r := by
  induction l with
  | nil => simp [findExtSplit]
  | cons c rest ih =>
    rw [List.mem_cons, not_or] at h
    simp only [List.cons_append, findExtSplit]
    rw [if_neg (fun hc => h.1 hc.symm)]
    exact ih h.2

/-- A name whose characters after the first hold no dot has no extension for
`path.parse`: its `name` part is the whole name. -/
theorem parseName_dots_only_at_head (n : Name) (h : '.' ∉ n.drop 1) :
    parseName n = n := by
  unfold parseName
  by_cases hdd : n = str ".."
  · rw [if_pos hdd]
  · rw [if_neg hdd]
    match n, h with
    | [], _ => rfl
    | c :: m, h =>
      simp only [List.drop_succ_cons, List.drop_zero] at h
      by_cases hc : c = '.'
      · subst hc
        have : ('.' :: m).reverse = m.reverse ++ '.' :: [] := by simp
        rw [this, findExtSplit_append _ _ (by simpa using h)]
        rfl
      · have hnm : '.' ∉ (c :: m).reverse := by
          simp only [List.mem_reverse, List.mem_cons, not_or]
          exact ⟨fun hc' => hc hc'.symm, h⟩
        rw [findExtSplit_of_not_mem _ hnm]

/-- `'.'` is not a token character. -/
theorem not_mem_of_all_tokenChar (l : Name) (h : l.all isTokenChar = true) :
    '.' ∉ l := by
  intro hm
  have := List.all_eq_true.mp h '.' hm
  simp [isTokenChar] at this

theorem parseName_staged (base token ext : Name) (htok : tokenOk token = true)
    (hext : stagedShapeOk base ext = true) :
    parseName (stagedName base token ext) = base ++ '-' :: token := by
  have hlen : token.length = 36 := by
    simp only [tokenOk, Bool.and_eq_true, beq_iff_eq] at htok
    exact htok.1
  have hdot : '.' ∉ token := by
    simp only [tokenOk, Bool.and_eq_true] at htok
    exact not_mem_of_all_tokenChar token htok.2
  cases ext with
  | nil =>
    have hb : '.' ∉ base.drop 1 := by simpa [stagedShapeOk] using hext
    have hall : '.' ∉ (stagedName base token []).drop 1 := by
      unfold stagedName
      match base with
      | [] => simpa using hdot
      | c :: b' =>
        simp only [List.drop_succ_cons, List.drop_zero] at hb
        simp only [List.cons_append, List.drop_succ_cons, List.drop_zero,
          List.mem_append, List.mem_cons, not_or]
        exact ⟨hb, by decide, by simpa using hdot⟩
    rw [parseName_dots_only_at_head _ hall]
    simp [stagedName]
  | cons c e =>
    obtain ⟨hc, he⟩ : c = '.' ∧ '.' ∉ e := by
      simpa [stagedShapeOk] using hext
    subst hc
    have hsplit : stagedName base token ('.' :: e)
        = (base ++ '-' :: token) ++ '.' :: e := by
      simp [stagedName]
    have hne : stagedName base token ('.' :: e) ≠ str ".." := by
      intro hcontra
      have := congrArg List.length hcontra
      rw [hsplit] at this
      simp [hlen, str] at this
      omega
    unfold parseName
    rw [if_neg hne, hsplit]
    have hrev : ((base ++ '-' :: token) ++ '.' :: e).reverse
        = e.reverse ++ '.' :: (base ++ '-' :: token).reverse := by
      simp
    rw [hrev, findExtSplit_append _ _ (by simpa using he)]
    have hne2 : (base ++ '-' :: token).reverse ≠ [] := by simp
    rw [if_neg hne2]
    simp

theorem stripUuid_append (base token : Name) (htok : tokenOk token = true) :
    stripUuidSuffix (base ++ '-' :: token) = base := by
  have hlen : token.length = 36 := by
    simp only [tokenOk, Bool.and_eq_true, beq_iff_eq] at htok
    exact htok.1
  have hall : token.all isTokenChar = true := by
    simp only [tokenOk, Bool.and_eq_true] at htok
    exact htok.2
  have hl : (base ++ '-' :: token).length = base.length + 37 := by
    simp [hlen]
  have h37 : (base ++ '-' :: token).length - 37 = base.length := by omega
  have h36 : (base ++ '-' :: token).length - 36 = base.length + 1 := by omega
  have hassoc : base ++ '-' :: token = (base ++ ['-']) ++ token := by simp
  have hTrail : hasTrailingToken (base ++ '-' :: token) = true := by
    simp only [hasTrailingToken, Bool.and_eq_true, decide_eq_true_eq, beq_iff_eq]
    refine ⟨⟨by omega, ?_⟩, ?_⟩
    · rw [h37]
      rw [List.drop_left]
      rfl
    · rw [h36, hassoc]
      have : base.length + 1 = (base ++ ['-']).length := by simp
      rw [this, List.drop_left]
      exact hall
  unfold stripUuidSuffix
  rw [if_pos hTrail, h37, List.take_left]

theorem fileBaseName_staged (sep : Char) (base token ext : Name)
    (htok : tokenOk token = true) (hext : stagedShapeOk base ext = true) :
    (getFilePaths sep (stagedName base token ext)).fileBaseName = base := by
  simp only [getFilePaths]
  rw [parseName_staged base token ext htok hext, stripUuid_append base token htok]

theorem pathJoin_upload_len_eq (sep : Char) (a b : Name)
    (h : pathJoin sep UPLOAD_DIR a = pathJoin sep UPLOAD_DIR b) :
    a.length = b.length := by
  have hl := congrArg List.length h
  rw [pathJoin_length, pathJoin_length] at hl
  omega

/-- For every staged name of the multer shape, the staged path and the
resolved canonical path are distinct (they differ in length: the staged
name carries the 37-character token while the canonical name carries only
the 5-character `.webp` tail). -/
theorem filePath_ne_canonical (sep : Char) (base token ext : Name)
    (htok : tokenOk token = true) (hext : stagedShapeOk base ext = true) :
    (getFilePaths sep (stagedName base token ext)).filePath
      ≠ (getFilePaths sep (stagedName base token ext)).originalOutputPath := by
  intro h
  simp only [getFilePaths] at h
  have hlen := pathJoin_upload_len_eq _ _ _ h
  rw [parseName_staged _ _ _ htok hext, stripUuid_append _ _ htok] at hlen
  have htl : token.length = 36 := by
    simp only [tokenOk, Bool.and_eq_true, beq_iff_eq] at htok
    exact htok.1
  have hwebp : DEFAULT_FORMAT.length = 4 := rfl
  simp only [stagedName, List.length_append, List.length_cons, htl, hwebp] at hlen
  omega

theorem isValid_cases (t : Name) (h : isValidImageType t = true) :
    t = str "game" ∨ t = str "promotion" := by
  simpa [isValidImageType] using h

theorem lookup_of_isValid (t : Name) (h : isValidImageType t = true) :
    ∃ d, imageConfigLookup t = some d := by
  rcases isValid_cases t h with ht | ht <;> subst ht
  · exact ⟨_, rfl⟩
  · exact ⟨_, rfl⟩

/-! ## Claims -/

/-- **C3** (confirmed): for every staged file name `<base>-<token><ext>` whose
token matches the fixed collision-avoidance pattern (36 characters of
`[a-f0-9-]`), the resolver `getFilePaths` strips the extension and then
exactly one trailing `-<token>` — and nothing else — to obtain the base name;
and for any name whose stem carries no trailing token, the stem is returned
unchanged as the base name. -/
theorem c3_resolver_strips_one_token (sep : Char) (base token ext other : Name)
    (htok : tokenOk token = true) (hext : stagedShapeOk base ext = true)
    (hnot : hasTrailingToken (parseName other) = false) :
    (getFilePaths sep (stagedName base token ext)).fileBaseName = base
    ∧ (getFilePaths sep other).fileBaseName = parseName other := by
  refine ⟨fileBaseName_staged sep base token ext htok hext, ?_⟩
  simp only [getFilePaths, stripUuidSuffix]
  rw [if_neg (by simp [hnot])]

/-- Witness for C3 at `photo-123e4567-e89b-12d3-a456-426614174000.jpg` and the
token-free `readme.txt`. -/
theorem c3_resolver_strips_one_token_witness :
    (getFilePaths '/' (stagedName (str "photo") exampleToken (str ".jpg"))).fileBaseName
        = str "photo"
    ∧ (getFilePaths '/' (str "readme.txt")).fileBaseName = parseName (str "readme.txt") :=
  c3_resolver_strips_one_token '/' (str "photo") exampleToken (str ".jpg")
    (str "readme.txt") (by decide) (by decide) (by decide)

/-- **C6** (confirmed): an upload with an unregistered image type fails with
the invalid-type error (`BadRequestException('Invalid image type: …')`, which
the service's catch-all then wraps) before any conversion: the returned
filesystem is exactly the input one — the staged file is not deleted and no
canonical or variant artifact is written. -/
theorem c6_invalid_type_no_side_effects (sep : Char) (port : Nat) (fs : FS)
    (filename imageType : Name) (staged : ImgData)
    (hs : fs.read (getFilePaths sep filename).filePath = some staged)
    (hv : isValidImageType imageType = false) :
    processImage sep port fs filename imageType
      = (fs, .error (wrapProcess (.badRequest (str "Invalid image type: " ++ imageType)))) := by
  simp only [processImage, hs, hv]
  rfl

/-- Witness for C6: uploading as the unregistered type `banner` leaves the
example filesystem untouched. -/
theorem c6_invalid_type_no_side_effects_witness :
    processImage '/' 3000 exampleFS exampleStaged (str "banner")
      = (exampleFS, .error (wrapProcess (.badRequest (str "Invalid image type: banner")))) :=
  c6_invalid_type_no_side_effects '/' 3000 exampleFS exampleStaged (str "banner")
    exampleImg (by rfl) (by decide)

/-- **C1** (code bug): the spec requires validation failures to surface as
client errors (`BadRequestException`, 4xx), but both service methods throw
them inside a `try` whose `catch` rethrows everything as
`InternalServerErrorException` (5xx): an unregistered image type and an
invalid crop rectangle are both reported as wrapped server errors. -/
theorem c1_validation_wrapped_into_server_error :
    (processImage '/' 3000 exampleFS exampleStaged (str "banner")).2
      = .error (.internalServerError
          (str "Error processing image: Invalid image type: banner"))
    ∧ (cropImage '/' exampleFS exampleStaged
        { x := -1, y := 0, width := 10, height := 10, outputFormat := none }).2
      = .error (.internalServerError
          (str "Error cropping image: Invalid crop dimensions (negative values are not allowed)."))
    ∧ ∀ m, SvcError.internalServerError m ≠ SvcError.badRequest m := by
  exact ⟨rfl, rfl, fun m h => SvcError.noConfusion h⟩

/-- Behaviour of `convertToWebP` on distinct staged/canonical paths with the
staged file present: it succeeds, an existing canonical file is left exactly
as it was, a missing canonical file is created from the re-encoded staged
bytes, and the staged file is deleted in both branches. -/
theorem convert_spec (fs : FS) (fp op : Name) (s : ImgData) (hne : fp ≠ op)
    (hs : fs.read fp = some s) :
    (convertToWebP fs fp op).2 = .ok ()
    ∧ (∀ d, fs.read op = some d → (convertToWebP fs fp op).1.read op = some d)
    ∧ (fs.read op = none → (convertToWebP fs fp op).1.read op = some (webpEncode s))
    ∧ (convertToWebP fs fp op).1.read fp = none := by
  have hne' : op ≠ fp := fun h => hne h.symm
  cases hop : fs.read op with
  | some d0 =>
    simp only [convertToWebP, hs, hop]
    refine ⟨trivial, ?_, ?_, ?_⟩
    · intro d hd
      cases hd
      rw [FS.read_del, if_neg hne']
      exact hop
    · intro hcontra
      cases hcontra
    · rw [FS.read_del, if_pos rfl]
  | none =>
    simp only [convertToWebP, hs, hop]
    refine ⟨trivial, ?_, ?_, ?_⟩
    · intro d hd
      cases hd
    · intro _
      rw [FS.read_del, if_neg hne', FS.read_write, if_pos rfl]
    · rw [FS.read_del, if_pos rfl]

/-- **C2** (confirmed): for every invocation of `convertToWebP` on a staged
name of the multer shape, with the staged file present: if a canonical
artifact already exists at the resolved canonical path its content is not
rewritten or altered; otherwise the staged bytes are re-encoded to the
default format at that path; and in both branches the conversion succeeds
and the staged file is deleted afterwards. -/
theorem c2_convert_to_canonical_idempotent (sep : Char) (base token ext : Name)
    (fs : FS) (s : ImgData)
    (htok : tokenOk token = true) (hext : stagedShapeOk base ext = true)
    (hs : fs.read (getFilePaths sep (stagedName base token ext)).filePath = some s) :
    (convertToWebP fs (getFilePaths sep (stagedName base token ext)).filePath
       (getFilePaths sep (stagedName base token ext)).originalOutputPath).2 = .ok ()
    ∧ (∀ d, fs.read (getFilePaths sep (stagedName base token ext)).originalOutputPath = some d →
        (convertToWebP fs (getFilePaths sep (stagedName base token ext)).filePath
           (getFilePaths sep (stagedName base token ext)).originalOutputPath).1.read
          (getFilePaths sep (stagedName base token ext)).originalOutputPath = some d)
    ∧ (fs.read (getFilePaths sep (stagedName base token ext)).originalOutputPath = none →
        (convertToWebP fs (getFilePaths sep (stagedName base token ext)).filePath
           (getFilePaths sep (stagedName base token ext)).originalOutputPath).1.read
          (getFilePaths sep (stagedName base token ext)).originalOutputPath
          = some (webpEncode s))
    ∧ (convertToWebP fs (getFilePaths sep (stagedName base token ext)).filePath
         (getFilePaths sep (stagedName base token ext)).originalOutputPath).1.read
        (getFilePaths sep (stagedName base token ext)).filePath = none :=
  convert_spec fs _ _ s (filePath_ne_canonical sep base token ext htok hext) hs

/-- Witness for C2: converting the example staged upload with no canonical
present writes the re-encoded canonical file and removes the staged one. -/
theorem c2_convert_to_canonical_idempotent_witness :
    (convertToWebP exampleFS
       (getFilePaths '/' (stagedName (str "photo") exampleToken (str ".jpg"))).filePath
       (getFilePaths '/' (stagedName (str "photo") exampleToken (str ".jpg"))).originalOutputPath).2
      = .ok ()
    ∧ (∀ d, exampleFS.read (getFilePaths '/' (stagedName (str "photo") exampleToken (str ".jpg"))).originalOutputPath = some d →
        (convertToWebP exampleFS
           (getFilePaths '/' (stagedName (str "photo") exampleToken (str ".jpg"))).filePath
           (getFilePaths '/' (stagedName (str "photo") exampleToken (str ".jpg"))).originalOutputPath).1.read
          (getFilePaths '/' (stagedName (str "photo") exampleToken (str ".jpg"))).originalOutputPath = some d)
    ∧ (exampleFS.read (getFilePaths '/' (stagedName (str "photo") exampleToken (str ".jpg"))).originalOutputPath = none →
        (convertToWebP exampleFS
           (getFilePaths '/' (stagedName (str "photo") exampleToken (str ".jpg"))).filePath
           (getFilePaths '/' (stagedName (str "photo") exampleToken (str ".jpg"))).originalOutputPath).1.read
          (getFilePaths '/' (stagedName (str "photo") exampleToken (str ".jpg"))).originalOutputPath
          = some (webpEncode exampleImg))
    ∧ (convertToWebP exampleFS
         (getFilePaths '/' (stagedName (str "photo") exampleToken (str ".jpg"))).filePath
         (getFilePaths '/' (stagedName (str "photo") exampleToken (str ".jpg"))).originalOutputPath).1.read
        (getFilePaths '/' (stagedName (str "photo") exampleToken (str ".jpg"))).filePath = none :=
  c2_convert_to_canonical_idempotent '/' (str "photo") exampleToken (str ".jpg")
    exampleFS exampleImg (by decide) (by decide) (by rfl)

/-- **C4** (confirmed): against a staged image of probed intrinsic size
`W×H`, a crop request with any negative origin or non-positive extent fails
with the invalid-geometry error, and one exceeding the bounds fails with the
out-of-bounds error (both raised as `BadRequestException`s and wrapped by the
service's catch-all); in either failure case the filesystem is returned
untouched — no cropped artifact is written and no canonical conversion is
performed. -/
theorem c4_crop_validation (sep : Char) (fs : FS) (filename : Name)
    (c : CropOption) (staged : ImgData) (W H : Int)
    (hs : fs.read (getFilePaths sep filename).filePath = some staged)
    (hW : staged.width = some W) (hH : staged.height = some H) :
    (c.x < 0 ∨ c.y < 0 ∨ c.width ≤ 0 ∨ c.height ≤ 0 →
      cropImage sep fs filename c
        = (fs, .error (wrapCrop (.badRequest invalidDimsMsg))))
    ∧ (¬ (c.x < 0 ∨ c.y < 0 ∨ c.width ≤ 0 ∨ c.height ≤ 0) →
       (W < c.x + c.width ∨ H < c.y + c.height) →
      cropImage sep fs filename c
        = (fs, .error (wrapCrop (.badRequest (exceedsMsg (some W) (some H)))))) := by
  constructor
  · intro hbad
    simp only [cropImage, hs]
    rw [if_pos hbad]
  · intro hok hoob
    simp only [cropImage, hs]
    rw [if_neg hok]
    have hcond : (jsGtOpt (c.x + c.width) staged.width
        || jsGtOpt (c.y + c.height) staged.height) = true := by
      rw [hW, hH]
      simp only [jsGtOpt, Bool.or_eq_true, decide_eq_true_eq]
      exact hoob
    rw [if_pos hcond, hW, hH]

/-- Witness for C4: on the 500×400 example image, a negative `x` triggers the
invalid-geometry error and `x = 400, width = 200` triggers the out-of-bounds
error, both leaving the filesystem untouched. -/
theorem c4_crop_validation_witness :
    (cropImage '/' exampleFS exampleStaged
        { x := -1, y := 0, width := 10, height := 10, outputFormat := none }
      = (exampleFS, .error (wrapCrop (.badRequest invalidDimsMsg))))
    ∧ (cropImage '/' exampleFS exampleStaged
        { x := 400, y := 20, width := 200, height := 150, outputFormat := none }
      = (exampleFS, .error (wrapCrop (.badRequest (exceedsMsg (some 500) (some 400)))))) :=
  ⟨(c4_crop_validation '/' exampleFS exampleStaged
      { x := -1, y := 0, width := 10, height := 10, outputFormat := none }
      exampleImg 500 400 (by rfl) (by rfl) (by rfl)).1 (by left; decide),
   (c4_crop_validation '/' exampleFS exampleStaged
      { x := 400, y := 20, width := 200, height := 150, outputFormat := none }
      exampleImg 500 400 (by rfl) (by rfl) (by rfl)).2 (by decide) (by left; decide)⟩

/-- Counterexample to **C7**: when the staged file is missing, the step-1
failure of `processImage` is NOT wrapped into the processing-failure report —
`ensureFileExists` runs before the `try` block, so the bare
`Error('File not found')` escapes as-is rather than as
`InternalServerErrorException('Error processing image: File not found')`. -/
theorem c7_step1_not_wrapped_counterexample :
    processImage '/' 3000 [] exampleStaged (str "game")
      = ([], .error (.plainError (str "File not found")))
    ∧ (processImage '/' 3000 [] exampleStaged (str "game")).2
      ≠ .error (wrapProcess (.plainError (str "File not found"))) :=
  ⟨rfl, fun h => by
    have h' : SvcError.plainError (str "File not found")
        = wrapProcess (.plainError (str "File not found")) := Except.error.inj h
    exact absurd h' (by decide)⟩

/-- **C7** (amended): every failure raised after the staged-file existence
check (steps 2–4: type validation, conversion, variant generation) is wrapped
into a single reported processing failure carrying the underlying cause's
message, and no partial result is returned; the step-1 failure itself — the
staged file missing — escapes unwrapped as a plain `File not found` error. -/
theorem c7_failures_after_step1_wrapped (sep : Char) (port : Nat) (fs : FS)
    (filename imageType : Name) :
    (fs.read (getFilePaths sep filename).filePath = none →
      processImage sep port fs filename imageType
        = (fs, .error (.plainError (str "File not found"))))
    ∧ (∀ staged fs' e, fs.read (getFilePaths sep filename).filePath = some staged →
        processImage sep port fs filename imageType = (fs', .error e) →
        ∃ cause, e = wrapProcess cause) := by
  constructor
  · intro h0
    simp only [processImage, h0]
  · intro staged fs' e hst he
    simp only [processImage, hst] at he
    by_cases hv : isValidImageType imageType = true
    · rw [if_pos hv] at he
      rcases hconv : convertToWebP fs (getFilePaths sep filename).filePath
          (getFilePaths sep filename).originalOutputPath with ⟨fs1, e1 | u⟩
      · simp only [hconv, Prod.mk.injEq, Except.error.injEq] at he
        exact ⟨e1, he.2.symm⟩
      · simp only [hconv] at he
        rcases hgen : generateVariations sep fs1 (getFilePaths sep filename).fileBaseName
            (getFilePaths sep filename).originalOutputPath imageType with ⟨fs2, e2 | v⟩
        · simp only [hgen, Prod.mk.injEq, Except.error.injEq] at he
          exact ⟨e2, he.2.symm⟩
        · simp only [hgen, Prod.mk.injEq] at he
          exact Except.noConfusion he.2
    · rw [if_neg hv] at he
      simp only [Prod.mk.injEq, Except.error.injEq] at he
      exact ⟨.badRequest (str "Invalid image type: " ++ imageType), he.2.symm⟩

/-- Witness for C7 (amended): the missing-staged-file case on the empty
filesystem, and the wrapped invalid-type failure on the example filesystem. -/
theorem c7_failures_after_step1_wrapped_witness :
    (FS.read [] (getFilePaths '/' exampleStaged).filePath = none →
      processImage '/' 3000 [] exampleStaged (str "game")
        = ([], .error (.plainError (str "File not found"))))
    ∧ (∀ staged fs' e,
        FS.read [] (getFilePaths '/' exampleStaged).filePath = some staged →
        processImage '/' 3000 [] exampleStaged (str "game") = (fs', .error e) →
        ∃ cause, e = wrapProcess cause) :=
  c7_failures_after_step1_wrapped '/' 3000 [] exampleStaged (str "game")

/-- **C8** (code bug): on a host whose native separator is the backslash,
the URLs built by `processImage` embed the `path.join`-produced filesystem
paths verbatim, so literal backslashes leak into the response URLs — exactly
the README-documented output `http://localhost:3000/images\uploads\….webp` —
contradicting the required forward-slash normalization. -/
theorem c8_backslash_leaks_into_urls :
    (processImage '\\' 3000 c8fs exampleStaged (str "game")).2
      = .ok { original := str "http://localhost:3000/images\\uploads\\photo.webp",
              variation := str "http://localhost:3000/images\\processed\\photo-thumbnail.webp" }
    ∧ '\\' ∈ str "http://localhost:3000/images\\uploads\\photo.webp"
    ∧ '\\' ∈ str "http://localhost:3000/images\\processed\\photo-thumbnail.webp" := by
  exact ⟨rfl, by decide, by decide⟩

/-- **C9** (confirmed): if the codec probe yields no intrinsic dimensions
(`metadata.width` and `metadata.height` undefined), the out-of-bounds
comparisons of `cropImage` — JavaScript `>` against `undefined` — are false
for every rectangle with non-negative origin and positive extent, so the
check never fires and the pipeline proceeds to conversion (the staged file
is consumed) and extraction regardless of the rectangle's size. -/
theorem c9_undefined_dims_skip_bounds_check (sep : Char) (fs : FS)
    (filename : Name) (c : CropOption) (staged : ImgData)
    (hs : fs.read (getFilePaths sep filename).filePath = some staged)
    (hW : staged.width = none) (hH : staged.height = none)
    (hx : 0 ≤ c.x) (hy : 0 ≤ c.y) (hw : 0 < c.width) (hh : 0 < c.height) :
    jsGtOpt (c.x + c.width) staged.width = false
    ∧ jsGtOpt (c.y + c.height) staged.height = false
    ∧ (cropImage sep fs filename c).1.read (getFilePaths sep filename).filePath
        = none := by
  refine ⟨by rw [hW]; rfl, by rw [hH]; rfl, ?_⟩
  have hgeom : ¬ (c.x < 0 ∨ c.y < 0 ∨ c.width ≤ 0 ∨ c.height ≤ 0) := by omega
  have hoob : (jsGtOpt (c.x + c.width) staged.width
      || jsGtOpt (c.y + c.height) staged.height) = false := by
    rw [hW, hH]; rfl
  simp only [cropImage, hs]
  rw [if_neg hgeom, hoob]
  simp only [Bool.false_eq_true, if_false]
  simp only [convertToWebP, hs]
  rcases hop : fs.read (getFilePaths sep filename).originalOutputPath with _ | d
  · simp only [hop]
    rcases hre : ((fs.write (getFilePaths sep filename).originalOutputPath
        (webpEncode staged)).del (getFilePaths sep filename).filePath).read
        (getFilePaths sep filename).originalOutputPath with _ | canon
    · simp [hre, FS.read_del]
    · simp only [hre]
      rcases hex : sharpExtract canon c.x c.y c.width c.height with _ | cropped
      · simp [hex, FS.read_del]
      · simp only [hex, FS.read_write]
        rw [if_neg (by
          simp only [getFilePaths, getOutputPath]
          exact upload_ne_output sep filename _), FS.read_del, if_pos rfl]
  · simp only [hop]
    rcases hre : (fs.del (getFilePaths sep filename).filePath).read
        (getFilePaths sep filename).originalOutputPath with _ | canon
    · simp [hre, FS.read_del]
    · simp only [hre]
      rcases hex : sharpExtract canon c.x c.y c.width c.height with _ | cropped
      · simp [hex, FS.read_del]
      · simp only [hex, FS.read_write]
        rw [if_neg (by
          simp only [getFilePaths, getOutputPath]
          exact upload_ne_output sep filename _), FS.read_del, if_pos rfl]

/-- Witness for C9: a one-million-pixel-wide rectangle sails past the bounds
check when the probe is undefined, and the staged file is still consumed. -/
theorem c9_undefined_dims_skip_bounds_check_witness :
    jsGtOpt (0 + 1000000) undefDimsImg.width = false
    ∧ jsGtOpt (0 + 1000000) undefDimsImg.height = false
    ∧ (cropImage '/' c9fs exampleStaged
        { x := 0, y := 0, width := 1000000, height := 1000000, outputFormat := none }).1.read
        (getFilePaths '/' exampleStaged).filePath = none :=
  c9_undefined_dims_skip_bounds_check '/' c9fs exampleStaged
    { x := 0, y := 0, width := 1000000, height := 1000000, outputFormat := none }
    undefDimsImg (by rfl) (by rfl) (by rfl) (by decide) (by decide) (by decide) (by decide)

/-- Counterexample to **C5**: a crop rectangle of 400×300 at the origin passes
validation against the staged file's probed 500×400 dimensions, but because a
100×100 canonical artifact already exists at the resolved canonical path the
conversion skips re-encoding, extraction reads that smaller pre-existing
file, and the extract step DOES fail its bounds check. -/
theorem c5_preexisting_canonical_counterexample :
    FS.read c5fs (getFilePaths '/' exampleStaged).originalOutputPath
      = some { width := some 100, height := some 100, fmt := str "webp", payload := 3 }
    ∧ (cropImage '/' c5fs exampleStaged
         { x := 0, y := 0, width := 400, height := 300, outputFormat := none }).2
      = .error (.internalServerError
          (str "Error cropping image: extract_area: bad extract area")) :=
  ⟨rfl, rfl⟩

/-- **C5** (amended): for every crop request that passes geometry validation
against the staged file's probed intrinsic dimensions `W×H`, provided no
canonical artifact already exists at the resolved canonical path, extraction
reads the canonical file freshly re-encoded from the staged bytes — whose
width and height re-encoding preserves exactly — so the extract step
succeeds and never fails a bounds check.  (When a canonical artifact for the
same base name already existed, its dimensions may differ from the staged
file's and extraction can fail — see the counterexample.) -/
theorem c5_extract_in_bounds_when_canonical_fresh (sep : Char) (fs : FS)
    (filename : Name) (c : CropOption) (staged : ImgData) (W H : Int)
    (hs : fs.read (getFilePaths sep filename).filePath = some staged)
    (hcanon : fs.read (getFilePaths sep filename).originalOutputPath = none)
    (hW : staged.width = some W) (hH : staged.height = some H)
    (hx : 0 ≤ c.x) (hy : 0 ≤ c.y) (hw : 0 < c.width) (hh : 0 < c.height)
    (hbw : c.x + c.width ≤ W) (hbh : c.y + c.height ≤ H) :
    (cropImage sep fs filename c).2
      = .ok (getOutputPath sep OUTPUT_DIR (getFilePaths sep filename).fileBaseName
          (str "cropped") (c.outputFormat.getD DEFAULT_FORMAT)) := by
  have hne : (getFilePaths sep filename).originalOutputPath
      ≠ (getFilePaths sep filename).filePath := by
    intro h
    rw [h, hs] at hcanon
    cases hcanon
  have hgeom : ¬ (c.x < 0 ∨ c.y < 0 ∨ c.width ≤ 0 ∨ c.height ≤ 0) := by omega
  have hoob : (jsGtOpt (c.x + c.width) staged.width
      || jsGtOpt (c.y + c.height) staged.height) = false := by
    rw [hW, hH]
    simp only [jsGtOpt, Bool.or_eq_false_iff, decide_eq_false_iff_not, not_lt]
    exact ⟨hbw, hbh⟩
  simp only [cropImage, hs]
  rw [if_neg hgeom, hoob]
  simp only [Bool.false_eq_true, if_false]
  simp only [convertToWebP, hs, hcanon]
  have hre : ((fs.write (getFilePaths sep filename).originalOutputPath
      (webpEncode staged)).del (getFilePaths sep filename).filePath).read
      (getFilePaths sep filename).originalOutputPath = some (webpEncode staged) := by
    rw [FS.read_del, if_neg hne, FS.read_write, if_pos rfl]
  simp only [hre]
  have hex : sharpExtract (webpEncode staged) c.x c.y c.width c.height
      = some { width := some c.width, height := some c.height,
               fmt := DEFAULT_FORMAT, payload := staged.payload } := by
    simp only [sharpExtract, webpEncode, hW, hH]
    rw [if_pos ⟨hx, hy, hw, hh, hbw, hbh⟩]
  simp only [hex]

/-- Witness for C5 (amended): cropping 200×150 at (10, 20) out of the fresh
500×400 example upload succeeds. -/
theorem c5_extract_in_bounds_when_canonical_fresh_witness :
    (cropImage '/' exampleFS exampleStaged
       { x := 10, y := 20, width := 200, height := 150, outputFormat := none }).2
      = .ok (getOutputPath '/' OUTPUT_DIR (getFilePaths '/' exampleStaged).fileBaseName
          (str "cropped") ((none : Option Name).getD DEFAULT_FORMAT)) :=
  c5_extract_in_bounds_when_canonical_fresh '/' exampleFS exampleStaged
    { x := 10, y := 20, width := 200, height := 150, outputFormat := none }
    exampleImg 500 400 (by rfl) (by rfl) (by rfl) (by rfl)
    (by decide) (by decide) (by decide) (by decide) (by decide) (by decide)

/-- Success inversion for `convertToWebP`: the staged file was present, and
the output filesystem is the input one with the canonical written when (and
only when) it was absent, and the staged path deleted. -/
theorem convertToWebP_ok_inv (fs fs' : FS) (fp op : Name)
    (h : convertToWebP fs fp op = (fs', .ok ())) :
    ∃ s, fs.read fp = some s
      ∧ ((∃ d, fs.read op = some d ∧ fs' = fs.del fp)
         ∨ (fs.read op = none ∧ fs' = (fs.write op (webpEncode s)).del fp)) := by
  cases hs : fs.read fp with
  | none => simp [convertToWebP, hs] at h
  | some s =>
    cases hop : fs.read op with
    | some d =>
      simp only [convertToWebP, hs, hop, Prod.mk.injEq] at h
      exact ⟨s, rfl, .inl ⟨d, rfl, h.1.symm⟩⟩
    | none =>
      simp only [convertToWebP, hs, hop, Prod.mk.injEq] at h
      exact ⟨s, rfl, .inr ⟨rfl, h.1.symm⟩⟩

/-- Success inversion for `generateVariations`: the type was registered, the
canonical input was readable, and the output filesystem is the input one
with the resized variant written wholesale at the resolved variant path. -/
theorem generateVariations_ok_inv (sep : Char) (fs fs' : FS)
    (bn fp t v : Name)
    (h : generateVariations sep fs bn fp t = (fs', .ok v)) :
    ∃ d img, imageConfigLookup t = some d
      ∧ fs.read fp = some img
      ∧ v = getOutputPath sep OUTPUT_DIR bn d.sfx DEFAULT_FORMAT
      ∧ fs' = fs.write v
          (sharpResize img d.width d.height
            (if t = str "promotion" then FitOpt.fill else FitOpt.inside)) := by
  cases hd : imageConfigLookup t with
  | none => simp [generateVariations, hd] at h
  | some d =>
    cases hr : fs.read fp with
    | none => simp [generateVariations, hd, hr] at h
    | some img =>
      simp only [generateVariations, hd, hr, Prod.mk.injEq, Except.ok.injEq] at h
      obtain ⟨h1, h2⟩ := h
      subst h2
      subst h1
      exact ⟨d, img, rfl, rfl, rfl, rfl⟩

/-- Success inversion for `processImage`: the staged file existed, the type
was valid, conversion succeeded, and variant generation produced the final
filesystem. -/
theorem processImage_ok_inv (sep : Char) (port : Nat) (fs fs' : FS)
    (filename imageType : Name) (r : ProcessResult)
    (h : processImage sep port fs filename imageType = (fs', .ok r)) :
    ∃ s fs1 v,
      fs.read (getFilePaths sep filename).filePath = some s
      ∧ isValidImageType imageType = true
      ∧ convertToWebP fs (getFilePaths sep filename).filePath
          (getFilePaths sep filename).originalOutputPath = (fs1, .ok ())
      ∧ generateVariations sep fs1 (getFilePaths sep filename).fileBaseName
          (getFilePaths sep filename).originalOutputPath imageType
          = (fs', .ok v) := by
  cases e1 : fs.read (getFilePaths sep filename).filePath with
  | none => simp [processImage, e1] at h
  | some s =>
    simp only [processImage, e1] at h
    by_cases hv : isValidImageType imageType = true
    · rw [if_pos hv] at h
      rcases e2 : convertToWebP fs (getFilePaths sep filename).filePath
          (getFilePaths sep filename).originalOutputPath with ⟨fs1, e | u⟩
      · simp [e2] at h
      · cases u
        simp only [e2] at h
        rcases e3 : generateVariations sep fs1 (getFilePaths sep filename).fileBaseName
            (getFilePaths sep filename).originalOutputPath imageType with ⟨fs2, e' | v⟩
        · simp [e3] at h
        · simp only [e3, Prod.mk.injEq, Except.ok.injEq] at h
          obtain ⟨h1, _⟩ := h
          subst h1
          exact ⟨s, fs1, v, rfl, hv, rfl, e3⟩
    · rw [if_neg hv] at h
      simp at h

/-- Success inversion for `cropImage`: the staged file existed, validation
passed, conversion succeeded, the canonical was readable, extraction
succeeded, and the final filesystem adds the cropped artifact at the
resolved `-cropped` output path. -/
theorem cropImage_ok_inv (sep : Char) (fs fs' : FS) (filename : Name)
    (c : CropOption) (out : Name)
    (h : cropImage sep fs filename c = (fs', .ok out)) :
    ∃ staged fs1 canonical cropped,
      fs.read (getFilePaths sep filename).filePath = some staged
      ∧ convertToWebP fs (getFilePaths sep filename).filePath
          (getFilePaths sep filename).originalOutputPath = (fs1, .ok ())
      ∧ fs1.read (getFilePaths sep filename).originalOutputPath = some canonical
      ∧ sharpExtract canonical c.x c.y c.width c.height = some cropped
      ∧ out = getOutputPath sep OUTPUT_DIR (getFilePaths sep filename).fileBaseName
          (str "cropped") (c.outputFormat.getD DEFAULT_FORMAT)
      ∧ fs' = fs1.write out
          (sharpToFormat cropped (c.outputFormat.getD DEFAULT_FORMAT)) := by
  cases e1 : fs.read (getFilePaths sep filename).filePath with
  | none => simp [cropImage, e1] at h
  | some staged =>
    simp only [cropImage, e1] at h
    by_cases hgeom : c.x < 0 ∨ c.y < 0 ∨ c.width ≤ 0 ∨ c.height ≤ 0
    · rw [if_pos hgeom] at h
      simp at h
    · rw [if_neg hgeom] at h
      by_cases hoob : (jsGtOpt (c.x + c.width) staged.width
          || jsGtOpt (c.y + c.height) staged.height) = true
      · rw [if_pos hoob] at h
        simp at h
      · rw [if_neg hoob] at h
        rcases e2 : convertToWebP fs (getFilePaths sep filename).filePath
            (getFilePaths sep filename).originalOutputPath with ⟨fs1, e | u⟩
        · simp [e2] at h
        · cases u
          simp only [e2] at h
          cases e3 : fs1.read (getFilePaths sep filename).originalOutputPath with
          | none => simp [e3] at h
          | some canonical =>
            simp only [e3] at h
            cases e4 : sharpExtract canonical c.x c.y c.width c.height with
            | none => simp [e4] at h
            | some cropped =>
              simp only [e4, Prod.mk.injEq, Except.ok.injEq] at h
              obtain ⟨h1, h2⟩ := h
              subst h2
              subst h1
              exact ⟨staged, fs1, canonical, cropped, rfl, rfl, e3, e4, rfl, rfl⟩

/-- **C10** (confirmed): a successful `processImage` or `cropImage` run
modifies only: the request's staged file (deleted), the resolved canonical
path (created from the re-encoded staged bytes only if absent, never
overwritten), and the single resolved variant / cropped output path
(overwritten wholesale); every other path in the upload and output
directories reads back unchanged. -/
theorem c10_frame_effects (sep : Char) (port : Nat) (fs fs' fsc' : FS)
    (filename imageType : Name) (c : CropOption) (r : ProcessResult)
    (out : Name) :
    (processImage sep port fs filename imageType = (fs', .ok r) →
      (∀ p, p ≠ (getFilePaths sep filename).filePath →
            p ≠ (getFilePaths sep filename).originalOutputPath →
            p ≠ variantPathOf sep imageType (getFilePaths sep filename).fileBaseName →
            fs'.read p = fs.read p)
      ∧ fs'.read (getFilePaths sep filename).filePath = none
      ∧ (∀ d, fs.read (getFilePaths sep filename).originalOutputPath = some d →
           fs'.read (getFilePaths sep filename).originalOutputPath = some d)
      ∧ (fs.read (getFilePaths sep filename).originalOutputPath = none →
           fs'.read (getFilePaths sep filename).originalOutputPath
             = (fs.read (getFilePaths sep filename).filePath).map webpEncode)
      ∧ (fs'.read (variantPathOf sep imageType
            (getFilePaths sep filename).fileBaseName)).isSome = true)
    ∧ (cropImage sep fs filename c = (fsc', .ok out) →
      (∀ p, p ≠ (getFilePaths sep filename).filePath →
            p ≠ (getFilePaths sep filename).originalOutputPath →
            p ≠ out → fsc'.read p = fs.read p)
      ∧ fsc'.read (getFilePaths sep filename).filePath = none
      ∧ (∀ d, fs.read (getFilePaths sep filename).originalOutputPath = some d →
           fsc'.read (getFilePaths sep filename).originalOutputPath = some d)
      ∧ (fs.read (getFilePaths sep filename).originalOutputPath = none →
           fsc'.read (getFilePaths sep filename).originalOutputPath
             = (fs.read (getFilePaths sep filename).filePath).map webpEncode)
      ∧ out = getOutputPath sep OUTPUT_DIR (getFilePaths sep filename).fileBaseName
          (str "cropped") (c.outputFormat.getD DEFAULT_FORMAT)
      ∧ (fsc'.read out).isSome = true) := by
  constructor
  · intro h
    obtain ⟨s, fs1, v, e1, hv, hcv, hgen⟩ :=
      processImage_ok_inv sep port fs fs' filename imageType r h
    obtain ⟨d, img, hd, hread1, hveq, hfs'⟩ :=
      generateVariations_ok_inv sep fs1 fs' _ _ _ _ hgen
    obtain ⟨s', hs', hbranch⟩ := convertToWebP_ok_inv fs fs1 _ _ hcv
    rw [e1] at hs'
    injection hs' with hss
    subst hss
    have hvar : variantPathOf sep imageType (getFilePaths sep filename).fileBaseName
        = v := by
      simp only [variantPathOf, hd]
      exact hveq.symm
    have hfp_v : (getFilePaths sep filename).filePath ≠ v := by
      rw [hveq]
      exact upload_ne_output sep filename _
    have hop_v : (getFilePaths sep filename).originalOutputPath ≠ v := by
      rw [hveq]
      exact upload_ne_output sep _ _
    have hfs1fp : fs1.read (getFilePaths sep filename).filePath = none := by
      rcases hbranch with ⟨d0, _, hfs1⟩ | ⟨_, hfs1⟩ <;>
        rw [hfs1, FS.read_del, if_pos rfl]
    have hop_fp : (getFilePaths sep filename).originalOutputPath
        ≠ (getFilePaths sep filename).filePath := by
      intro heq
      rw [← heq] at hfs1fp
      rw [hfs1fp] at hread1
      cases hread1
    refine ⟨?_, ?_, ?_, ?_, ?_⟩
    · intro p hp1 hp2 hp3
      rw [hvar] at hp3
      rw [hfs', FS.read_write, if_neg hp3]
      rcases hbranch with ⟨d0, hop, hfs1⟩ | ⟨hop, hfs1⟩
      · rw [hfs1, FS.read_del, if_neg hp1]
      · rw [hfs1, FS.read_del, if_neg hp1, FS.read_write, if_neg hp2]
    · rw [hfs', FS.read_write, if_neg hfp_v, hfs1fp]
    · intro dc hdc
      rcases hbranch with ⟨d0, hop, hfs1⟩ | ⟨hop, hfs1⟩
      · rw [hfs', FS.read_write, if_neg hop_v, hfs1, FS.read_del, if_neg hop_fp, hdc]
      · rw [hop] at hdc
        cases hdc
    · intro hnone
      rcases hbranch with ⟨d0, hop, hfs1⟩ | ⟨hop, hfs1⟩
      · rw [hop] at hnone
        cases hnone
      · rw [hfs', FS.read_write, if_neg hop_v, hfs1, FS.read_del, if_neg hop_fp,
          FS.read_write, if_pos rfl, e1]
        rfl
    · rw [hvar, hfs', FS.read_write, if_pos rfl]
      rfl
  · intro h
    obtain ⟨staged, fs1, canonical, cropped, e1, hcv, hread1, hex, hout, hfs'⟩ :=
      cropImage_ok_inv sep fs fsc' filename c out h
    obtain ⟨s', hs', hbranch⟩ := convertToWebP_ok_inv fs fs1 _ _ hcv
    rw [e1] at hs'
    injection hs' with hss
    subst hss
    have hfp_out : (getFilePaths sep filename).filePath ≠ out := by
      rw [hout]
      exact upload_ne_output sep filename _
    have hop_out : (getFilePaths sep filename).originalOutputPath ≠ out := by
      rw [hout]
      exact upload_ne_output sep _ _
    have hfs1fp : fs1.read (getFilePaths sep filename).filePath = none := by
      rcases hbranch with ⟨d0, _, hfs1⟩ | ⟨_, hfs1⟩ <;>
        rw [hfs1, FS.read_del, if_pos rfl]
    have hop_fp : (getFilePaths sep filename).originalOutputPath
        ≠ (getFilePaths sep filename).filePath := by
      intro heq
      rw [← heq] at hfs1fp
      rw [hfs1fp] at hread1
      cases hread1
    refine ⟨?_, ?_, ?_, ?_, hout, ?_⟩
    · intro p hp1 hp2 hp3
      rw [hfs', FS.read_write, if_neg hp3]
      rcases hbranch with ⟨d0, hop, hfs1⟩ | ⟨hop, hfs1⟩
      · rw [hfs1, FS.read_del, if_neg hp1]
      · rw [hfs1, FS.read_del, if_neg hp1, FS.read_write, if_neg hp2]
    · rw [hfs', FS.read_write, if_neg hfp_out, hfs1fp]
    · intro dc hdc
      rcases hbranch with ⟨d0, hop, hfs1⟩ | ⟨hop, hfs1⟩
      · rw [hfs', FS.read_write, if_neg hop_out, hfs1, FS.read_del, if_neg hop_fp, hdc]
      · rw [hop] at hdc
        cases hdc
    · intro hnone
      rcases hbranch with ⟨d0, hop, hfs1⟩ | ⟨hop, hfs1⟩
      · rw [hop] at hnone
        cases hnone
      · rw [hfs', FS.read_write, if_neg hop_out, hfs1, FS.read_del, if_neg hop_fp,
          FS.read_write, if_pos rfl, e1]
        rfl
    · rw [hfs', FS.read_write, if_pos rfl]
      rfl

/-- Witness for C10: on the example filesystem, the upload run leaves the
unrelated `other.webp` untouched and deletes the staged file, and the crop
run also deletes the staged file. -/
theorem c10_frame_effects_witness :
    FS.read (processImage '/' 3000 c10fs exampleStaged (str "game")).1
        (pathJoin '/' UPLOAD_DIR (str "other.webp"))
      = FS.read c10fs (pathJoin '/' UPLOAD_DIR (str "other.webp"))
    ∧ FS.read (processImage '/' 3000 c10fs exampleStaged (str "game")).1
        (getFilePaths '/' exampleStaged).filePath = none
    ∧ FS.read (cropImage '/' c10fs exampleStaged c10crop).1
        (getFilePaths '/' exampleStaged).filePath = none := by
  have hall := c10_frame_effects '/' 3000 c10fs
    (processImage '/' 3000 c10fs exampleStaged (str "game")).1
    (cropImage '/' c10fs exampleStaged c10crop).1
    exampleStaged (str "game") c10crop c10res
    (getOutputPath '/' OUTPUT_DIR (str "photo") (str "cropped") DEFAULT_FORMAT)
  have h1 := hall.1 (by rfl)
  have h2 := hall.2 (by rfl)
  exact ⟨h1.1 (pathJoin '/' UPLOAD_DIR (str "other.webp"))
      (by decide) (by decide) (by decide), h1.2.1, h2.2.1⟩
